import Mathlib

/-!
GoinsAPI: price cache and address holdings cache.

A shallow embedding of `goinsapi.go`.

Conventions of the embedding.

* Go maps (`map[string]T`) are association lists with pairwise distinct keys
  (`AList`); reading an absent key gives the zero value of `T`, as in Go.
* `float64` and `float32` values are rationals: the finite values.  Where a
  value is copied or converted, and in the sum and the product of
  `GetAddressData`, the arithmetic is read as exact.
* The division of `GetTokenBalance` is the `float32` division of the source:
  the divisor is `float32(math.Pow10(18))` and the quotient is rounded to the
  nearest `float32`, ties to even (`float32`).
* Go `int` fields are integers; `time.Time` is an integer time stamp.  No
  arithmetic is done on either.
* The package variables are the fields of `State`; every function takes the
  state and gives the state back.
* What the network answers is an explicit argument (`ListingsWorld`,
  `AddressWorld`).  A call that ends in `os.Exit` or `log.Fatal` gives
  `Outcome.exited` with the state as it was at that moment.
* The order in which `range` visits a map is chosen by the world: any
  enumeration of the keys.
-/

namespace GoinsAPI

/-! Go maps -/

/-- A Go `map[string]V`. -/
abbrev GoMap (V : Type) : Type := AList (fun _ : String => V)

/-- Go map read `m[k]`: the stored value, or the zero value of the type. -/
def GoMap.get {V : Type} [Inhabited V] (m : GoMap V) (k : String) : V :=
  (m.lookup k).getD default

/-- Go map write `m[k] = v`. -/
def GoMap.set {V : Type} (m : GoMap V) (k : String) (v : V) : GoMap V :=
  m.insert k v

/-- Go `delete(m, k)`. -/
def GoMap.delete {V : Type} (m : GoMap V) (k : String) : GoMap V :=
  m.erase k

/-- An order in which `range` may visit the keys of a map: each key once. -/
abbrev RangeOrder (V : Type) : Type :=
  (m : GoMap V) → { l : List String // l.Perm m.keys }

/-- The order in which the keys are stored. -/
def storedOrder (V : Type) : RangeOrder V :=
  fun m => ⟨m.keys, List.Perm.refl _⟩

/-- The reverse of the order in which the keys are stored. -/
def reversedOrder (V : Type) : RangeOrder V :=
  fun m => ⟨m.keys.reverse, List.reverse_perm _⟩

/-! Outcomes -/

/-- How a call ends: it returns to its caller, or the process is terminated
with an exit status (`os.Exit`, `log.Fatal`). -/
inductive Outcome (σ : Type) where
  | returned : σ → Outcome σ
  | exited : Nat → σ → Outcome σ
  deriving DecidableEq

/-- The package state when the call ended. -/
def Outcome.state {σ : Type} : Outcome σ → σ
  | .returned s => s
  | .exited _ s => s

/-- Whether control came back to the caller. -/
def Outcome.isReturned {σ : Type} : Outcome σ → Bool
  | .returned _ => true
  | .exited _ _ => false

/-! Types of the package -/

/-- Go `time.Time`. -/
abbrev Time : Type := Int

/-- The `quote.USD` object of one listing. -/
structure UsdQuote where
  Price : ℚ
  Volume24H : ℚ
  PercentChange1H : ℚ
  PercentChange24H : ℚ
  PercentChange7D : ℚ
  PercentChange30D : ℚ
  PercentChange60D : ℚ
  PercentChange90D : ℚ
  MarketCap : ℚ
  LastUpdated : Time
  deriving DecidableEq

/-- The `quote` object of one listing. -/
structure Quote where
  Usd : UsdQuote
  deriving DecidableEq

/-- One element of `coinList.Data`. -/
structure coinListEntry where
  ID : Int
  Name : String
  Symbol : String
  Slug : String
  NumMarketPairs : Int
  DateAdded : Time
  Tags : List String
  MaxSupply : Int
  CirculatingSupply : Int
  TotalSupply : Int
  CmcRank : Int
  LastUpdated : Time
  Quote : Quote
  deriving DecidableEq

/-- The listings structure; only `Data` is read by the package. -/
structure coinList where
  Data : List coinListEntry
  deriving DecidableEq

/-- The `coinPricing` record. -/
structure coinPricing where
  Price : ℚ
  Volume24H : ℚ
  PercentChange1H : ℚ
  PercentChange24H : ℚ
  PercentChange7D : ℚ
  PercentChange30D : ℚ
  PercentChange60D : ℚ
  PercentChange90D : ℚ
  MarketCap : ℚ
  LastUpdated : Time
  deriving DecidableEq

instance : Inhabited coinPricing := ⟨⟨0, 0, 0, 0, 0, 0, 0, 0, 0, 0⟩⟩

/-- The `price` object of a token, as in `apiExplorer` and in `tokenInfo`. -/
structure tokenPrice where
  Rate : ℚ
  Diff : ℚ
  Diff7D : ℚ
  Ts : Int
  MarketCapUsd : ℚ
  AvailableSupply : Int
  Volume24H : ℚ
  Diff30D : ℚ
  VolDiff1 : ℚ
  VolDiff7 : ℚ
  VolDiff30 : ℚ
  Currency : String
  deriving DecidableEq

instance : Inhabited tokenPrice := ⟨⟨0, 0, 0, 0, 0, 0, 0, 0, 0, 0, 0, ""⟩⟩

/-- The `tokenInfo` object of one element of `apiExplorer.Tokens`. -/
structure explorerTokenInfo where
  Address : String
  Name : String
  Decimals : String
  Symbol : String
  TotalSupply : String
  Owner : String
  LastUpdated : Int
  IssuancesCount : Int
  HoldersCount : Int
  Description : String
  Website : String
  Twitter : String
  Reddit : String
  Telegram : String
  Image : String
  Coingecko : String
  EthTransfersCount : Int
  Price : tokenPrice
  PublicTags : List String
  deriving DecidableEq

/-- One element of `apiExplorer.Tokens`. -/
structure explorerToken where
  TokenInfo : explorerTokenInfo
  Balance : ℚ
  TotalIn : Int
  TotalOut : Int
  RawBalance : String
  deriving DecidableEq

/-- The `ETH` object of `apiExplorer`; only `RawBalance` is read. -/
structure explorerEth where
  RawBalance : ℚ
  deriving DecidableEq

/-- The explorer answer `apiExplorer`. -/
structure apiExplorer where
  Address : String
  Eth : explorerEth
  CountTxs : Int
  Tokens : List explorerToken
  deriving DecidableEq

/-- The `tokenInfo` record kept per symbol. -/
structure tokenInfo where
  Address : String
  Name : String
  Decimals : String
  Symbol : String
  TotalSupply : String
  Owner : String
  LastUpdated : Int
  IssuancesCount : Int
  HoldersCount : Int
  Description : String
  Website : String
  Twitter : String
  Reddit : String
  Telegram : String
  Image : String
  Coingecko : String
  EthTransfersCount : Int
  Balance : ℚ
  RawBalance : String
  Price : tokenPrice
  deriving DecidableEq

instance : Inhabited tokenInfo :=
  ⟨⟨"", "", "", "", "", "", 0, 0, 0, "", "", "", "", "", "", "", 0, 0, "", default⟩⟩

/-- The `Api` part of `Config`. -/
structure ConfigApi where
  ApiUrl : String
  ApiTokenHeader : String
  ApiToken : String
  ApiAddress : String
  ApiPort : String
  deriving DecidableEq

/-- The `Config` structure. -/
structure Config where
  Api : ConfigApi
  deriving DecidableEq

/-- The package variables. -/
structure State where
  cList : coinList
  tokenList : apiExplorer
  coinPrices : GoMap coinPricing
  activeCoins : GoMap tokenInfo
  configData : Config
  addressBalance : ℚ
  ActiveTokenList : List String

/-- The package variables when the program starts. -/
def State.init : State :=
  { cList := ⟨[]⟩
    tokenList := ⟨"", ⟨0⟩, 0, []⟩
    coinPrices := ∅
    activeCoins := ∅
    configData := ⟨⟨"", "", "", "", ""⟩⟩
    addressBalance := 0
    ActiveTokenList := [] }

/-! Price cache -/

/-- One turn of the loop of `updatePriceMap`: the local `coinPriceData` is
overwritten field by field and stored under the symbol of the entry. -/
def updatePriceMapStep (acc : GoMap coinPricing × coinPricing) (cPrice : coinListEntry) :
    GoMap coinPricing × coinPricing :=
  let coinPriceData := acc.2
  let coinPriceData := { coinPriceData with LastUpdated := cPrice.LastUpdated }
  let coinPriceData := { coinPriceData with Price := cPrice.Quote.Usd.Price }
  let coinPriceData := { coinPriceData with Volume24H := cPrice.Quote.Usd.Volume24H }
  let coinPriceData := { coinPriceData with PercentChange1H := cPrice.Quote.Usd.PercentChange1H }
  let coinPriceData := { coinPriceData with PercentChange24H := cPrice.Quote.Usd.PercentChange24H }
  let coinPriceData := { coinPriceData with PercentChange7D := cPrice.Quote.Usd.PercentChange7D }
  let coinPriceData := { coinPriceData with PercentChange30D := cPrice.Quote.Usd.PercentChange30D }
  let coinPriceData := { coinPriceData with PercentChange60D := cPrice.Quote.Usd.PercentChange60D }
  let coinPriceData := { coinPriceData with PercentChange90D := cPrice.Quote.Usd.PercentChange90D }
  let coinPriceData := { coinPriceData with MarketCap := cPrice.Quote.Usd.MarketCap }
  let coinPriceData := { coinPriceData with LastUpdated := cPrice.Quote.Usd.LastUpdated }
  (acc.1.set cPrice.Symbol coinPriceData, coinPriceData)

/-- The function `updatePriceMap`: the map is not emptied; every entry of
`cList.Data` is stored under its symbol, in the order of the payload. -/
def updatePriceMap (s : State) : State :=
  { s with coinPrices := (s.cList.Data.foldl updatePriceMapStep (s.coinPrices, default)).1 }

/-- What the network answers during one call of `PullCoinData`. -/
structure ListingsWorld where
  /-- Whether `http.NewRequest` gives an error. -/
  newRequestErr : Bool
  /-- Whether `client.Do` gives an error. -/
  doErr : Bool
  /-- What `json.Unmarshal` of the response body makes of `cList`. -/
  unmarshal : coinList → coinList

/-- The function `PullCoinData`. -/
def PullCoinData (w : ListingsWorld) (yamlConfig : Config) (s : State) : Outcome State :=
  if w.newRequestErr then .exited 1 s
  else
    let s := { s with configData := yamlConfig }
    if w.doErr then .exited 1 s
    else
      let s := { s with cList := w.unmarshal s.cList }
      .returned (updatePriceMap s)

/-- The getter `GetPrice`. -/
def GetPrice (s : State) (sym : String) : ℚ :=
  (s.coinPrices.get sym).Price

/-- The getter `GetHourChange`. -/
def GetHourChange (s : State) (sym : String) : ℚ :=
  (s.coinPrices.get sym).PercentChange1H

/-- The getter `Get24HourChange`. -/
def Get24HourChange (s : State) (sym : String) : ℚ :=
  (s.coinPrices.get sym).PercentChange24H

/-- The record that `updatePriceMap` stores for one entry of the payload. -/
def pricingOf (e : coinListEntry) : coinPricing :=
  { Price := e.Quote.Usd.Price
    Volume24H := e.Quote.Usd.Volume24H
    PercentChange1H := e.Quote.Usd.PercentChange1H
    PercentChange24H := e.Quote.Usd.PercentChange24H
    PercentChange7D := e.Quote.Usd.PercentChange7D
    PercentChange30D := e.Quote.Usd.PercentChange30D
    PercentChange60D := e.Quote.Usd.PercentChange60D
    PercentChange90D := e.Quote.Usd.PercentChange90D
    MarketCap := e.Quote.Usd.MarketCap
    LastUpdated := e.Quote.Usd.LastUpdated }

/-- A listing with the given symbol, price and changes over 1h and 24h. -/
def listing (sym : String) (price h1 h24 : ℚ) : coinListEntry :=
  { ID := 0, Name := sym, Symbol := sym, Slug := sym, NumMarketPairs := 0, DateAdded := 0,
    Tags := [], MaxSupply := 0, CirculatingSupply := 0, TotalSupply := 0, CmcRank := 0,
    LastUpdated := 0,
    Quote := ⟨⟨price, 0, h1, h24, 0, 0, 0, 0, 0, 0⟩⟩ }

/-- The payload with the symbols A and B. -/
def payloadAB : coinList := ⟨[listing "A" 10 1 2, listing "B" 20 3 4]⟩

/-- The payload with the symbol A only. -/
def payloadA : coinList := ⟨[listing "A" 11 5 6]⟩

/-- A world in which the listings request succeeds and decodes to `p`. -/
def listingsWorld (p : coinList) : ListingsWorld :=
  { newRequestErr := false, doErr := false, unmarshal := fun _ => p }

/-- The start state with the payload A and B decoded into `cList`. -/
def listedState : State := { State.init with cList := payloadAB }

/-- The refresh of the price cache with the payload A and B, from the state
in which the program starts. -/
def afterFirstRefresh : Outcome State :=
  PullCoinData (listingsWorld payloadAB) State.init.configData State.init

/-- The refresh with the payload A only, after `afterFirstRefresh`. -/
def afterSecondRefresh : Outcome State :=
  PullCoinData (listingsWorld payloadA) State.init.configData afterFirstRefresh.state

/-! Address holdings cache -/

/-- What the network and the runtime answer during one call of
`GetAddressData`. -/
structure AddressWorld where
  /-- Whether `http.NewRequest` gives an error. -/
  newRequestErr : Bool
  /-- Whether `client.Do` gives an error. -/
  doErr : Bool
  /-- What `json.Unmarshal` of the response body makes of `tokenList`. -/
  unmarshal : apiExplorer → apiExplorer
  /-- Whether `ethclient.Dial` gives an error. -/
  dialErr : Bool
  /-- The answer of `BalanceAt`: `none` for an error, else the balance. -/
  balanceAt : Option Int
  /-- The `float32` that the balance becomes on its way through `big.Float`,
  its text and `strconv.ParseFloat`. -/
  balanceFloat : Int → ℚ
  /-- The order of the `range` that empties `activeCoins`. -/
  clearOrder : RangeOrder tokenInfo
  /-- The order of the `range` that builds the list and the sum. -/
  sumOrder : RangeOrder tokenInfo

/-- The function `getETHData`. -/
def getETHData (w : AddressWorld) (addx : String) (s : State) : Outcome State :=
  let ethData : tokenInfo := default
  let ethData := { ethData with Balance := s.tokenList.Eth.RawBalance }
  let ethData := { ethData with Image := "https://ethplorer.io/images/eth.png" }
  let ethData := { ethData with Address := addx }
  let ethData := { ethData with Website := "https://ethereum.org/" }
  let ethData := { ethData with Symbol := "ETH" }
  let ethData := { ethData with Name := "Ethereum" }
  if w.dialErr then .exited 1 s
  else
    match w.balanceAt with
    | none => .exited 1 s
    | some balance =>
      let value := w.balanceFloat balance
      let ethData := { ethData with Balance := value }
      .returned { s with activeCoins := s.activeCoins.set "ETH" ethData }

/-- One turn of the loop of `updateTokenBalanceMap`: the local `tokenData` is
overwritten in every field but `Price`, which no statement of the loop
assigns, and stored under its symbol when the website is not empty. -/
def updateTokenBalanceMapStep (acc : GoMap tokenInfo × tokenInfo) (cToken : explorerToken) :
    GoMap tokenInfo × tokenInfo :=
  let tokenData : tokenInfo :=
    { acc.2 with
      Address := cToken.TokenInfo.Address
      Name := cToken.TokenInfo.Name
      Decimals := cToken.TokenInfo.Decimals
      Symbol := cToken.TokenInfo.Symbol
      TotalSupply := cToken.TokenInfo.TotalSupply
      Owner := cToken.TokenInfo.Owner
      LastUpdated := cToken.TokenInfo.LastUpdated
      IssuancesCount := cToken.TokenInfo.IssuancesCount
      HoldersCount := cToken.TokenInfo.HoldersCount
      Description := cToken.TokenInfo.Description
      Website := cToken.TokenInfo.Website
      Twitter := cToken.TokenInfo.Twitter
      Reddit := cToken.TokenInfo.Reddit
      Telegram := cToken.TokenInfo.Telegram
      Image := cToken.TokenInfo.Image
      Coingecko := cToken.TokenInfo.Coingecko
      EthTransfersCount := cToken.TokenInfo.EthTransfersCount
      RawBalance := cToken.RawBalance
      Balance := cToken.Balance }
  if tokenData.Website ≠ "" then (acc.1.set tokenData.Symbol tokenData, tokenData)
  else (acc.1, tokenData)

/-- The function `updateTokenBalanceMap`: empty the map, put the native asset
back, then store the tokens of `tokenList`. -/
def updateTokenBalanceMap (w : AddressWorld) (addx : String) (s : State) : Outcome State :=
  let s := { s with
    activeCoins := (w.clearOrder s.activeCoins).1.foldl GoMap.delete s.activeCoins }
  match getETHData w addx s with
  | .exited code s => .exited code s
  | .returned s =>
    .returned { s with
      activeCoins := (s.tokenList.Tokens.foldl updateTokenBalanceMapStep
        (s.activeCoins, default)).1 }

/-- Round to the nearest integer, a tie to the even one. -/
def roundHalfEven (q : ℚ) : ℤ :=
  if q - ⌊q⌋ < 1 / 2 then ⌊q⌋
  else if 1 / 2 < q - ⌊q⌋ then ⌊q⌋ + 1
  else if ⌊q⌋ % 2 = 0 then ⌊q⌋
  else ⌊q⌋ + 1

/-- The exponent of the last binary place that a `float32` keeps at `x`: 24
significant bits, and never below 2^-149, the spacing of the subnormals. -/
def float32Exponent (x : ℚ) : ℤ := max (Int.log 2 |x| - 23) (-149)

/-- Rounding to `float32`, as done by a Go conversion `float32(x)` and by every
`float32` operation on its exact result: the significand is rounded to the
nearest integer, a tie to the even one.  The value is right for every `x`
below the overflow threshold, where Go gives a finite number; the quotient of
`GetTokenBalance` is always below it (`IsFloat32.abs_lt` and the size of the
divisor). -/
def float32 (x : ℚ) : ℚ :=
  roundHalfEven (x / 2 ^ float32Exponent x) * 2 ^ float32Exponent x

/-- The finite values of the type `float32`: a significand below 2^24 in
absolute value times a power of two between 2^-149 and 2^104. -/
def IsFloat32 (y : ℚ) : Prop :=
  ∃ m e : ℤ, |m| < 2 ^ 24 ∧ -149 ≤ e ∧ e ≤ 104 ∧ y = m * 2 ^ e

/-- Go `math.Pow10(n)` for 0 ≤ n ≤ 22, where the power of ten is a `float64`
exactly. -/
def Pow10 (n : Nat) : ℚ := 10 ^ n

/-- The getter `GetTokenBalance`: a `float32` division by
`float32(math.Pow10(18))`. -/
def GetTokenBalance (s : State) (sym : String) : ℚ :=
  float32 ((s.activeCoins.get sym).Balance / float32 (Pow10 18))

/-- The getter `GetTokenList`. -/
def GetTokenList (s : State) : List String :=
  s.ActiveTokenList

/-- The getter `GetTokenName`. -/
def GetTokenName (s : State) (sym : String) : String :=
  (s.activeCoins.get sym).Name

/-- The getter `GetTokenChange`. -/
def GetTokenChange (s : State) (sym : String) : ℚ :=
  (s.activeCoins.get sym).Price.Diff

/-- The getter `GetTokenUrl`. -/
def GetTokenUrl (s : State) (sym : String) : String :=
  (s.activeCoins.get sym).Website

/-- The getter `GetAddressBalance`. -/
def GetAddressBalance (s : State) : ℚ :=
  s.addressBalance

/-- The getter `GetTokenImageUrl`. -/
def GetTokenImageUrl (s : State) (sym : String) : String :=
  if sym = "ETH" then (s.activeCoins.get sym).Image
  else "https://ethplorer.io" ++ (s.activeCoins.get sym).Image

/-- One turn of the last loop of `GetAddressData`. -/
def GetAddressDataStep (s : State) (sym : String) : State :=
  let s := { s with ActiveTokenList := s.ActiveTokenList ++ [sym] }
  { s with addressBalance := s.addressBalance + GetPrice s sym * GetTokenBalance s sym }

/-- The function `GetAddressData`.  The length of the address is Go `len`,
the number of bytes. -/
def GetAddressData (w : AddressWorld) (addx : String) (s : State) : Outcome State :=
  if addx.utf8ByteSize < 20 ∨ addx.utf8ByteSize > 42 then .returned s
  else
    let s := { s with ActiveTokenList := [] }
    if w.newRequestErr then .exited 1 s
    else if w.doErr then .exited 1 s
    else
      let s := { s with tokenList := w.unmarshal s.tokenList }
      match updateTokenBalanceMap w addx s with
      | .exited code s => .exited code s
      | .returned s =>
        let s := { s with addressBalance := 0 }
        .returned ((w.sumOrder s.activeCoins).1.foldl GetAddressDataStep s)

/-- The record that `updateTokenBalanceMap` builds for one token, given the
`Price` that the local `tokenData` carries. -/
def tokenInfoOf (cToken : explorerToken) (price : tokenPrice) : tokenInfo :=
  { Address := cToken.TokenInfo.Address
    Name := cToken.TokenInfo.Name
    Decimals := cToken.TokenInfo.Decimals
    Symbol := cToken.TokenInfo.Symbol
    TotalSupply := cToken.TokenInfo.TotalSupply
    Owner := cToken.TokenInfo.Owner
    LastUpdated := cToken.TokenInfo.LastUpdated
    IssuancesCount := cToken.TokenInfo.IssuancesCount
    HoldersCount := cToken.TokenInfo.HoldersCount
    Description := cToken.TokenInfo.Description
    Website := cToken.TokenInfo.Website
    Twitter := cToken.TokenInfo.Twitter
    Reddit := cToken.TokenInfo.Reddit
    Telegram := cToken.TokenInfo.Telegram
    Image := cToken.TokenInfo.Image
    Coingecko := cToken.TokenInfo.Coingecko
    EthTransfersCount := cToken.TokenInfo.EthTransfersCount
    Balance := cToken.Balance
    RawBalance := cToken.RawBalance
    Price := price }

/-- The record that `getETHData` stores for the native asset. -/
def ethInfoOf (addx : String) (value : ℚ) : tokenInfo :=
  { (default : tokenInfo) with
    Balance := value
    Image := "https://ethplorer.io/images/eth.png"
    Address := addx
    Website := "https://ethereum.org/"
    Symbol := "ETH"
    Name := "Ethereum" }

/-! Sample data -/

/-- An explorer token with the given symbol, website, balance and price
difference. -/
def sampleToken (sym website : String) (balance diff : ℚ) : explorerToken :=
  { TokenInfo :=
      { Address := "0x00", Name := sym, Decimals := "18", Symbol := sym, TotalSupply := "1",
        Owner := "", LastUpdated := 0, IssuancesCount := 0, HoldersCount := 0,
        Description := "", Website := website, Twitter := "", Reddit := "", Telegram := "",
        Image := "/images/" ++ sym, Coingecko := "", EthTransfersCount := 0,
        Price := ⟨1, diff, 0, 0, 0, 0, 0, 0, 0, 0, 0, "USD"⟩, PublicTags := [] }
    Balance := balance, TotalIn := 0, TotalOut := 0, RawBalance := "1" }

/-- An explorer answer with the given tokens. -/
def sampleExplorer (tokens : List explorerToken) : apiExplorer :=
  ⟨"0x00", ⟨0⟩, 0, tokens⟩

/-- A world in which every request succeeds: the explorer answers `tokens`
and the node answers `balance`. -/
def goodWorld (tokens : List explorerToken) (balance : Int) : AddressWorld :=
  { newRequestErr := false, doErr := false, unmarshal := fun _ => sampleExplorer tokens,
    dialErr := false, balanceAt := some balance, balanceFloat := fun b => b,
    clearOrder := storedOrder tokenInfo, sumOrder := reversedOrder tokenInfo }

/-- A world in which the explorer answers but the node cannot be dialled. -/
def dialFailWorld (tokens : List explorerToken) : AddressWorld :=
  { goodWorld tokens 0 with dialErr := true, balanceAt := none }

/-- An address of 42 bytes. -/
def sampleAddress : String := "0x0123456789abcdef0123456789abcdef01234567"

/-- An address of 5 bytes. -/
def shortAddress : String := "0x012"

/-- The holdings cache that the rebuild produces from the empty map when the
node answers `value`: the native asset first, then the tokens. -/
def rebuiltCoins (tokens : List explorerToken) (addx : String) (value : ℚ) : GoMap tokenInfo :=
  (tokens.foldl updateTokenBalanceMapStep
    ((∅ : GoMap tokenInfo).insert "ETH" (ethInfoOf addx value), default)).1

/-- A refresh of the holdings of `sampleAddress` after `afterFirstRefresh`: the
explorer lists the token X with a website, the balance 999999984306749440,
which is `float32(1e18)`, and the price difference 7, and a token Y without a website. -/
def heldOutcome : Outcome State :=
  GetAddressData
    (goodWorld [sampleToken "X" "w" 999999984306749440 7, sampleToken "Y" "" 5 1] 3)
    sampleAddress afterFirstRefresh.state

/-- The state after `heldOutcome`. -/
def heldState : State := heldOutcome.state

/-- A second refresh, from `heldState`, during which the node cannot be
dialled. -/
def failOutcome : Outcome State :=
  GetAddressData (dialFailWorld [sampleToken "X" "w" 999999984306749440 7]) sampleAddress
    heldState

/-- A refresh of the holdings of `sampleAddress` from the start state: the
explorer lists the token X with a website and the balance 2. -/
def twoOutcome : Outcome State :=
  GetAddressData (goodWorld [sampleToken "X" "w" 2 7] 3) sampleAddress State.init

/-- The state after `twoOutcome`. -/
def twoState : State := twoOutcome.state

/-! Theorems -/

theorem updatePriceMapStep_eq (acc : GoMap coinPricing × coinPricing) (e : coinListEntry) :
    updatePriceMapStep acc e = (acc.1.insert e.Symbol (pricingOf e), pricingOf e) := by
  rfl

theorem updateTokenBalanceMapStep_eq (acc : GoMap tokenInfo × tokenInfo) (t : explorerToken) :
    updateTokenBalanceMapStep acc t =
      (if t.TokenInfo.Website ≠ "" then acc.1.insert t.TokenInfo.Symbol (tokenInfoOf t acc.2.Price)
        else acc.1, tokenInfoOf t acc.2.Price) := by
  unfold updateTokenBalanceMapStep
  by_cases h : t.TokenInfo.Website ≠ "" <;> simp [h, tokenInfoOf, GoMap.set]

/-! Price cache -/

theorem foldl_price_lookup_of_not_mem (l : List coinListEntry)
    (acc : GoMap coinPricing × coinPricing) (k : String)
    (h : k ∉ l.map (fun e => e.Symbol)) :
    (l.foldl updatePriceMapStep acc).1.lookup k = acc.1.lookup k := by
  induction l generalizing acc with
  | nil => rfl
  | cons e l ih =>
    simp only [List.map_cons, List.mem_cons, not_or] at h
    rw [List.foldl_cons, ih _ h.2, updatePriceMapStep_eq]
    exact AList.lookup_insert_ne h.1

theorem foldl_price_lookup_of_mem (l : List coinListEntry)
    (acc : GoMap coinPricing × coinPricing) (e : coinListEntry)
    (hn : (l.map (fun e => e.Symbol)).Nodup) (he : e ∈ l) :
    (l.foldl updatePriceMapStep acc).1.lookup e.Symbol = some (pricingOf e) := by
  induction l generalizing acc with
  | nil => simp at he
  | cons x l ih =>
    rw [List.map_cons, List.nodup_cons] at hn
    rw [List.foldl_cons]
    rcases List.mem_cons.1 he with rfl | he'
    · rw [foldl_price_lookup_of_not_mem _ _ _ hn.1, updatePriceMapStep_eq]
      exact AList.lookup_insert _
    · exact ih _ hn.2 he'

theorem foldl_price_mem_iff (l : List coinListEntry)
    (acc : GoMap coinPricing × coinPricing) (k : String) :
    k ∈ (l.foldl updatePriceMapStep acc).1 ↔ k ∈ acc.1 ∨ k ∈ l.map (fun e => e.Symbol) := by
  induction l generalizing acc with
  | nil => simp
  | cons x l ih =>
    rw [List.foldl_cons, ih, updatePriceMapStep_eq]
    simp only [AList.mem_insert, List.map_cons, List.mem_cons]
    tauto

/-- After `updatePriceMap` the keys of the price cache are the keys it had
before together with the symbols of the payload: nothing is removed. -/
theorem updatePriceMap_mem_iff (s : State) (k : String) :
    k ∈ (updatePriceMap s).coinPrices ↔
      k ∈ s.coinPrices ∨ k ∈ s.cList.Data.map (fun e => e.Symbol) :=
  foldl_price_mem_iff _ _ _

/-- C1: for a payload with pairwise distinct symbols and any prior price cache,
after `updatePriceMap` the three price getters give, for the symbol of every
entry of the payload, the USD price and the changes over 1h and 24h of that
entry; and when the prior cache is empty, `GetPrice` is 0 for every symbol
that the payload does not have. -/
theorem C1_updatePriceMap_serves_payload (s : State)
    (hdistinct : (s.cList.Data.map (fun e => e.Symbol)).Nodup) :
    (∀ e ∈ s.cList.Data,
        GetPrice (updatePriceMap s) e.Symbol = e.Quote.Usd.Price ∧
        GetHourChange (updatePriceMap s) e.Symbol = e.Quote.Usd.PercentChange1H ∧
        Get24HourChange (updatePriceMap s) e.Symbol = e.Quote.Usd.PercentChange24H) ∧
    (s.coinPrices = ∅ → ∀ c : String, c ∉ s.cList.Data.map (fun e => e.Symbol) →
        GetPrice (updatePriceMap s) c = 0) := by
  refine ⟨fun e he => ?_, fun hempty c hc => ?_⟩
  · have h := foldl_price_lookup_of_mem s.cList.Data (s.coinPrices, default) e hdistinct he
    simp only [GetPrice, GetHourChange, Get24HourChange, GoMap.get, updatePriceMap, h,
      Option.getD_some, pricingOf, and_self]
  · have h := foldl_price_lookup_of_not_mem s.cList.Data (s.coinPrices, default) c hc
    rw [hempty] at h
    simp only [GetPrice, GoMap.get, updatePriceMap, hempty, h, AList.lookup_empty,
      Option.getD_none]
    rfl

/-- C1 at the payload with the symbols A and B and the empty prior cache. -/
theorem C1_updatePriceMap_serves_payload_witness :
    (listedState.cList.Data.map (fun e => e.Symbol)).Nodup ∧
    ((∀ e ∈ listedState.cList.Data,
        GetPrice (updatePriceMap listedState) e.Symbol = e.Quote.Usd.Price ∧
        GetHourChange (updatePriceMap listedState) e.Symbol = e.Quote.Usd.PercentChange1H ∧
        Get24HourChange (updatePriceMap listedState) e.Symbol
          = e.Quote.Usd.PercentChange24H) ∧
      (listedState.coinPrices = ∅ →
        ∀ c : String, c ∉ listedState.cList.Data.map (fun e => e.Symbol) →
          GetPrice (updatePriceMap listedState) c = 0)) :=
  ⟨by decide, C1_updatePriceMap_serves_payload listedState (by decide)⟩

/-- C2, the code at the payloads first A and B, then A only, starting from the
empty cache: both refreshes return, and after the second one the symbol B is
still a key of the price cache and `GetPrice "B"` is still the price of the
first payload, 20, not 0. -/
theorem C2_stale_symbol_survives :
    afterFirstRefresh.isReturned = true ∧ afterSecondRefresh.isReturned = true ∧
    afterSecondRefresh.state.cList = payloadA ∧
    payloadA.Data.map (fun e => e.Symbol) = ["A"] ∧
    afterSecondRefresh.state.coinPrices.keys = ["A", "B"] ∧
    GetPrice afterSecondRefresh.state "B" = 20 := by
  decide

/-! Holdings cache: the rebuild -/

theorem foldl_delete_mem_iff {V : Type} (l : List String) (m : GoMap V) (k : String) :
    k ∈ l.foldl GoMap.delete m ↔ k ∈ m ∧ k ∉ l := by
  induction l generalizing m with
  | nil => simp
  | cons x l ih =>
    rw [List.foldl_cons, ih]
    simp only [GoMap.delete, AList.mem_erase, List.mem_cons, not_or]
    tauto

theorem GoMap.eq_empty_of_forall_not_mem {V : Type} (m : GoMap V) (h : ∀ k, k ∉ m) :
    m = ∅ := by
  apply AList.ext
  rw [AList.empty_entries]
  apply List.eq_nil_iff_forall_not_mem.2
  intro e he
  exact h e.1 (AList.mem_keys.2 (List.mem_keys_of_mem he))

/-- The loop that deletes every key visited by `range` leaves the empty map,
in whatever order the keys are visited. -/
theorem foldl_delete_range {V : Type} (order : RangeOrder V) (m : GoMap V) :
    (order m).1.foldl GoMap.delete m = ∅ := by
  apply GoMap.eq_empty_of_forall_not_mem
  intro k hk
  rw [foldl_delete_mem_iff] at hk
  exact hk.2 ((order m).2.mem_iff.2 (AList.mem_keys.1 hk.1))

theorem foldl_token_snd_price (l : List explorerToken) (acc : GoMap tokenInfo × tokenInfo) :
    (l.foldl updateTokenBalanceMapStep acc).2.Price = acc.2.Price := by
  induction l generalizing acc with
  | nil => rfl
  | cons t l ih => rw [List.foldl_cons, ih, updateTokenBalanceMapStep_eq]; rfl

theorem foldl_token_mem_iff (l : List explorerToken) (acc : GoMap tokenInfo × tokenInfo)
    (k : String) :
    k ∈ (l.foldl updateTokenBalanceMapStep acc).1 ↔
      k ∈ acc.1 ∨ ∃ t ∈ l, t.TokenInfo.Symbol = k ∧ t.TokenInfo.Website ≠ "" := by
  induction l generalizing acc with
  | nil => simp
  | cons t l ih =>
    rw [List.foldl_cons, ih, updateTokenBalanceMapStep_eq]
    by_cases hw : t.TokenInfo.Website ≠ ""
    · simp only [hw, if_true, AList.mem_insert, List.mem_cons, exists_eq_or_imp, ne_eq,
        not_false_eq_true, and_true]
      constructor
      · rintro ((h | h) | h)
        · exact Or.inr (Or.inl h.symm)
        · exact Or.inl h
        · exact Or.inr (Or.inr h)
      · rintro (h | h | h)
        · exact Or.inl (Or.inr h)
        · exact Or.inl (Or.inl h.symm)
        · exact Or.inr h
    · have hw' : t.TokenInfo.Website = "" := not_not.1 hw
      simp only [hw, if_false, List.mem_cons, exists_eq_or_imp, hw', ne_eq, not_true_eq_false,
        and_false, false_or]

theorem foldl_token_lookup (l : List explorerToken) (acc : GoMap tokenInfo × tokenInfo)
    (k : String) (r : tokenInfo)
    (h : (l.foldl updateTokenBalanceMapStep acc).1.lookup k = some r) :
    acc.1.lookup k = some r ∨
      ∃ t ∈ l, t.TokenInfo.Symbol = k ∧ t.TokenInfo.Website ≠ "" ∧
        r = tokenInfoOf t acc.2.Price := by
  induction l generalizing acc with
  | nil => exact Or.inl h
  | cons t l ih =>
    rw [List.foldl_cons] at h
    rcases ih _ h with h1 | ⟨t', ht', hs, hw, hr⟩
    · rw [updateTokenBalanceMapStep_eq] at h1
      by_cases hw : t.TokenInfo.Website ≠ ""
      · rw [if_pos hw] at h1
        by_cases hk : k = t.TokenInfo.Symbol
        · subst hk
          rw [AList.lookup_insert] at h1
          exact Or.inr ⟨t, List.mem_cons_self _ _, rfl, hw, (Option.some.inj h1).symm⟩
        · rw [AList.lookup_insert_ne hk] at h1
          exact Or.inl h1
      · rw [if_neg hw] at h1
        exact Or.inl h1
    · refine Or.inr ⟨t', List.mem_cons_of_mem _ ht', hs, hw, ?_⟩
      rw [hr, updateTokenBalanceMapStep_eq]
      rfl

/-- When the node answers, `getETHData` stores the record of the native asset
under the key ETH and returns. -/
theorem getETHData_ok (w : AddressWorld) (addx : String) (s : State) (b : Int)
    (hd : w.dialErr = false) (hb : w.balanceAt = some b) :
    getETHData w addx s = .returned
      { s with activeCoins := s.activeCoins.insert "ETH" (ethInfoOf addx (w.balanceFloat b)) } := by
  simp [getETHData, hd, hb, GoMap.set, ethInfoOf]

/-- When the node cannot be dialled or `BalanceAt` fails, `getETHData` ends the
process with status 1 and has written nothing. -/
theorem getETHData_fail (w : AddressWorld) (addx : String) (s : State)
    (hfail : w.dialErr = true ∨ w.balanceAt = none) :
    getETHData w addx s = .exited 1 s := by
  unfold getETHData
  rcases hfail with h | h
  · simp [h]
  · cases hd : w.dialErr <;> simp [h]

theorem updateTokenBalanceMap_ok (w : AddressWorld) (addx : String) (s : State) (b : Int)
    (hd : w.dialErr = false) (hb : w.balanceAt = some b) :
    updateTokenBalanceMap w addx s = .returned
      { s with activeCoins := (s.tokenList.Tokens.foldl updateTokenBalanceMapStep
          ((∅ : GoMap tokenInfo).insert "ETH" (ethInfoOf addx (w.balanceFloat b)), default)).1 } := by
  unfold updateTokenBalanceMap
  simp only [foldl_delete_range]
  rw [getETHData_ok w addx _ b hd hb]

theorem updateTokenBalanceMap_fail (w : AddressWorld) (addx : String) (s : State)
    (hfail : w.dialErr = true ∨ w.balanceAt = none) :
    updateTokenBalanceMap w addx s = .exited 1 { s with activeCoins := ∅ } := by
  unfold updateTokenBalanceMap
  simp only [foldl_delete_range]
  rw [getETHData_fail w addx _ hfail]

theorem rebuiltCoins_mem_iff (tokens : List explorerToken) (addx : String) (value : ℚ)
    (k : String) :
    k ∈ rebuiltCoins tokens addx value ↔
      k = "ETH" ∨ ∃ t ∈ tokens, t.TokenInfo.Symbol = k ∧ t.TokenInfo.Website ≠ "" := by
  unfold rebuiltCoins
  rw [foldl_token_mem_iff]
  simp only [AList.mem_insert, AList.not_mem_empty, or_false]

theorem rebuiltCoins_lookup (tokens : List explorerToken) (addx : String) (value : ℚ)
    (k : String) (r : tokenInfo) (h : (rebuiltCoins tokens addx value).lookup k = some r) :
    (k = "ETH" ∧ r = ethInfoOf addx value) ∨
      ∃ t ∈ tokens, t.TokenInfo.Symbol = k ∧ t.TokenInfo.Website ≠ "" ∧
        r = tokenInfoOf t default := by
  rcases foldl_token_lookup tokens _ k r h with h1 | h1
  · left
    by_cases hk : k = "ETH"
    · subst hk
      rw [AList.lookup_insert] at h1
      exact ⟨rfl, (Option.some.inj h1).symm⟩
    · rw [AList.lookup_insert_ne hk, AList.lookup_empty] at h1
      exact absurd h1 (by simp)
  · exact Or.inr h1

theorem updateTokenBalanceMap_rebuilt (w : AddressWorld) (addx : String) (s : State) (b : Int)
    (hd : w.dialErr = false) (hb : w.balanceAt = some b) :
    updateTokenBalanceMap w addx s = .returned
      { s with activeCoins := rebuiltCoins s.tokenList.Tokens addx (w.balanceFloat b) } :=
  updateTokenBalanceMap_ok w addx s b hd hb

/-- C3: when the native-asset fetch succeeds, `updateTokenBalanceMap` returns,
and in the state it returns (1) a symbol other than ETH is a key of the
holdings cache exactly when some token of the explorer list has that symbol
and a non-empty website; (2) the result is the same for every prior content of
the holdings cache; (3) every stored record is the native-asset record written
by this call or the copy of a listed token with a non-empty website; (4) no
stored record has an empty website. -/
theorem C3_holdings_rebuild (w : AddressWorld) (addx : String) (s : State) (b : Int)
    (hd : w.dialErr = false) (hb : w.balanceAt = some b) :
    ∃ s' : State, updateTokenBalanceMap w addx s = .returned s' ∧
      (∀ sym : String, sym ≠ "ETH" →
        (sym ∈ s'.activeCoins ↔
          ∃ t ∈ s.tokenList.Tokens, t.TokenInfo.Symbol = sym ∧ t.TokenInfo.Website ≠ "")) ∧
      (∀ prior : GoMap tokenInfo,
        updateTokenBalanceMap w addx { s with activeCoins := prior } = .returned s') ∧
      (∀ (sym : String) (r : tokenInfo), s'.activeCoins.lookup sym = some r →
        (sym = "ETH" ∧ r = ethInfoOf addx (w.balanceFloat b)) ∨
          ∃ t ∈ s.tokenList.Tokens, t.TokenInfo.Symbol = sym ∧ t.TokenInfo.Website ≠ "" ∧
            r = tokenInfoOf t default) ∧
      (∀ (sym : String) (r : tokenInfo), s'.activeCoins.lookup sym = some r →
        r.Website ≠ "") := by
  refine ⟨_, updateTokenBalanceMap_rebuilt w addx s b hd hb, ?_, ?_, ?_, ?_⟩
  · intro sym hsym
    show sym ∈ rebuiltCoins _ _ _ ↔ _
    rw [rebuiltCoins_mem_iff]
    simp only [hsym, false_or]
  · intro prior
    exact updateTokenBalanceMap_rebuilt w addx { s with activeCoins := prior } b hd hb
  · intro sym r h
    exact rebuiltCoins_lookup _ _ _ _ _ h
  · intro sym r h
    rcases rebuiltCoins_lookup _ _ _ _ _ h with ⟨_, hr⟩ | ⟨t, _, _, hw, hr⟩
    · rw [hr]
      show ("https://ethereum.org/" : String) ≠ ""
      decide
    · rw [hr]
      exact hw

/-- C3 at `heldState` as prior state, with the token X (website) and the token
Y (no website) listed. -/
theorem C3_holdings_rebuild_witness :
    (goodWorld [sampleToken "X" "w" 1 7, sampleToken "Y" "" 5 1] 3).dialErr = false ∧
    (goodWorld [sampleToken "X" "w" 1 7, sampleToken "Y" "" 5 1] 3).balanceAt = some 3 ∧
    ∃ s' : State,
      updateTokenBalanceMap (goodWorld [sampleToken "X" "w" 1 7, sampleToken "Y" "" 5 1] 3)
        sampleAddress heldState = .returned s' ∧
      (∀ sym : String, sym ≠ "ETH" →
        (sym ∈ s'.activeCoins ↔
          ∃ t ∈ heldState.tokenList.Tokens,
            t.TokenInfo.Symbol = sym ∧ t.TokenInfo.Website ≠ "")) ∧
      (∀ prior : GoMap tokenInfo,
        updateTokenBalanceMap (goodWorld [sampleToken "X" "w" 1 7, sampleToken "Y" "" 5 1] 3)
          sampleAddress { heldState with activeCoins := prior } = .returned s') ∧
      (∀ (sym : String) (r : tokenInfo), s'.activeCoins.lookup sym = some r →
        (sym = "ETH" ∧ r = ethInfoOf sampleAddress
          ((goodWorld [sampleToken "X" "w" 1 7, sampleToken "Y" "" 5 1] 3).balanceFloat 3)) ∨
          ∃ t ∈ heldState.tokenList.Tokens,
            t.TokenInfo.Symbol = sym ∧ t.TokenInfo.Website ≠ "" ∧
              r = tokenInfoOf t default) ∧
      (∀ (sym : String) (r : tokenInfo), s'.activeCoins.lookup sym = some r →
        r.Website ≠ "") :=
  ⟨rfl, rfl,
   C3_holdings_rebuild (goodWorld [sampleToken "X" "w" 1 7, sampleToken "Y" "" 5 1] 3)
     sampleAddress heldState 3 rfl rfl⟩

/-! Rounding to float32 -/

theorem int_log_two_eq (r : ℚ) (k : ℤ) (hlo : (2 : ℚ) ^ k ≤ r) (hhi : r < (2 : ℚ) ^ (k + 1)) :
    Int.log 2 r = k := by
  have hr : 0 < r := lt_of_lt_of_le (by positivity) hlo
  have h2 : (1 : ℕ) < 2 := by norm_num
  apply le_antisymm
  · have := (Int.lt_zpow_iff_log_lt h2 hr (x := k + 1)).1 (by exact_mod_cast hhi)
    omega
  · exact (Int.zpow_le_iff_le_log h2 hr).1 (by exact_mod_cast hlo)

theorem roundHalfEven_sub_le (q : ℚ) : |(roundHalfEven q : ℚ) - q| ≤ 1 / 2 := by
  have h1 := Int.floor_le q
  have h2 := Int.lt_floor_add_one q
  unfold roundHalfEven
  split_ifs with ha hb hc
  · rw [abs_le]; constructor <;> linarith
  · rw [abs_le]; push_cast; constructor <;> linarith
  · rw [abs_le]; constructor <;> linarith
  · rw [abs_le]; push_cast; constructor <;> linarith

theorem roundHalfEven_eq_of_lt (q : ℚ) (z : ℤ) (h : |q - z| < 1 / 2) : roundHalfEven q = z := by
  rw [abs_lt] at h
  unfold roundHalfEven
  by_cases hz : (z : ℚ) ≤ q
  · have hf : ⌊q⌋ = z := Int.floor_eq_iff.2 ⟨hz, by linarith⟩
    rw [hf, if_pos (by linarith)]
  · have hf : ⌊q⌋ = z - 1 := Int.floor_eq_iff.2 ⟨by push_cast; linarith, by push_cast; linarith⟩
    rw [hf]
    push_cast
    rw [if_neg (by linarith), if_pos (by linarith)]
    ring

theorem roundHalfEven_nearest (q : ℚ) (n : ℤ) : |(roundHalfEven q : ℚ) - q| ≤ |(n : ℚ) - q| := by
  by_cases h : |(n : ℚ) - q| < 1 / 2
  · have := roundHalfEven_eq_of_lt q n (by rw [abs_sub_comm]; exact h)
    rw [this]
  · exact le_trans (roundHalfEven_sub_le q) (not_lt.1 h)


theorem float32Exponent_eq (x : ℚ) (k : ℤ) (hlo : (2 : ℚ) ^ k ≤ |x|)
    (hhi : |x| < (2 : ℚ) ^ (k + 1)) (hk : -149 ≤ k - 23) : float32Exponent x = k - 23 := by
  unfold float32Exponent
  rw [int_log_two_eq _ k hlo hhi]
  exact max_eq_left hk

theorem float32_eval (x : ℚ) (k m : ℤ) (hlo : (2 : ℚ) ^ k ≤ |x|)
    (hhi : |x| < (2 : ℚ) ^ (k + 1)) (hk : -149 ≤ k - 23)
    (hm : |x / 2 ^ (k - 23) - m| < 1 / 2) : float32 x = m * 2 ^ (k - 23) := by
  unfold float32
  rw [float32Exponent_eq x k hlo hhi hk, roundHalfEven_eq_of_lt _ m hm]

theorem float32_pow10 : float32 ((10 : ℚ) ^ 18) = 999999984306749440 := by
  rw [float32_eval (10 ^ 18) 59 14551915 (by norm_num) (by norm_num) (by norm_num)
    (by rw [abs_lt]; norm_num)]
  norm_num

theorem float32_one : float32 1 = 1 := by
  rw [float32_eval 1 0 8388608 (by norm_num) (by norm_num) (by norm_num)
    (by rw [abs_lt]; norm_num)]
  norm_num

theorem float32_two_div : float32 (2 / 999999984306749440) = 9671407 / 2 ^ 82 := by
  rw [float32_eval (2 / 999999984306749440) (-59) 9671407
    (by rw [abs_of_pos (by norm_num)]; norm_num) (by rw [abs_of_pos (by norm_num)]; norm_num)
    (by norm_num) (by rw [abs_lt]; norm_num)]
  norm_num

theorem float32_zero : float32 0 = 0 := by
  unfold float32
  rw [zero_div, roundHalfEven_eq_of_lt 0 0 (by norm_num)]
  simp

theorem float32_sub_le_grid (x : ℚ) (n : ℤ) :
    |float32 x - x| ≤ |(n : ℚ) * 2 ^ float32Exponent x - x| := by
  have hpos : (0 : ℚ) < 2 ^ float32Exponent x := by positivity
  have h1 : float32 x - x =
      ((roundHalfEven (x / 2 ^ float32Exponent x) : ℚ) - x / 2 ^ float32Exponent x) *
        2 ^ float32Exponent x := by
    unfold float32
    field_simp
  have h2 : (n : ℚ) * 2 ^ float32Exponent x - x =
      ((n : ℚ) - x / 2 ^ float32Exponent x) * 2 ^ float32Exponent x := by
    field_simp
  rw [h1, h2, abs_mul, abs_mul]
  exact mul_le_mul_of_nonneg_right (roundHalfEven_nearest _ n) (abs_nonneg _)

theorem float32_nearest (x y : ℚ) (hy : IsFloat32 y) : |float32 x - x| ≤ |y - x| := by
  obtain ⟨m, e, hm, he1, he2, rfl⟩ := hy
  by_cases hx : x = 0
  · subst hx
    rw [float32_zero]
    simp
  by_cases hle : float32Exponent x ≤ e
  · have h := float32_sub_le_grid x (m * 2 ^ (e - float32Exponent x).toNat)
    have hpow : ((2 : ℚ) ^ (e - float32Exponent x).toNat) * 2 ^ float32Exponent x = 2 ^ e := by
      rw [← zpow_natCast, ← zpow_add₀ (by norm_num : (2 : ℚ) ≠ 0)]
      congr 1
      rw [Int.toNat_of_nonneg (by omega)]
      ring
    have hcast : ((m * 2 ^ (e - float32Exponent x).toNat : ℤ) : ℚ) * 2 ^ float32Exponent x
        = (m : ℚ) * 2 ^ e := by
      push_cast
      rw [mul_assoc, hpow]
    rw [hcast] at h
    exact h
  · have hlt : e < float32Exponent x := not_le.1 hle
    have hE : float32Exponent x = Int.log 2 |x| - 23 := by
      unfold float32Exponent at hlt ⊢
      rcases max_cases (Int.log 2 |x| - 23) (-149) with ⟨h, _⟩ | ⟨h, _⟩
      · exact h
      · rw [h] at hlt; omega
    have habs : 0 < |x| := abs_pos.2 hx
    have hlog : (2 : ℚ) ^ (float32Exponent x + 23) ≤ |x| := by
      have := Int.zpow_log_le_self (b := 2) (by norm_num) habs
      rw [hE]
      simpa using this
    have hy : |(m : ℚ) * 2 ^ e| ≤ (2 : ℚ) ^ (float32Exponent x + 23) := by
      rw [abs_mul, abs_of_pos (by positivity : (0 : ℚ) < 2 ^ e)]
      have hm' : |(m : ℚ)| ≤ 2 ^ (24 : ℤ) := by
        have h : ((|m| : ℤ) : ℚ) ≤ ((2 ^ 24 : ℤ) : ℚ) := by exact_mod_cast hm.le
        rw [Int.cast_abs] at h
        norm_num at h ⊢
        exact h
      calc |(m : ℚ)| * 2 ^ e ≤ 2 ^ (24 : ℤ) * 2 ^ e :=
            mul_le_mul_of_nonneg_right hm' (by positivity)
        _ = 2 ^ (24 + e) := by rw [zpow_add₀ (by norm_num : (2 : ℚ) ≠ 0)]
        _ ≤ 2 ^ (float32Exponent x + 23) :=
            zpow_le_zpow_right₀ (by norm_num) (by omega)
    have hsplit : (2 : ℚ) ^ (float32Exponent x + 23) = (2 ^ 23 : ℤ) * 2 ^ float32Exponent x := by
      rw [zpow_add₀ (by norm_num : (2 : ℚ) ≠ 0), mul_comm]
      norm_num
    rcases lt_or_gt_of_ne hx with hneg | hpos
    · have h := float32_sub_le_grid x (-(2 ^ 23 : ℤ))
      have hg : ((-(2 ^ 23 : ℤ) : ℤ) : ℚ) * 2 ^ float32Exponent x
          = -(2 : ℚ) ^ (float32Exponent x + 23) := by
        rw [hsplit]; push_cast; ring
      rw [hg] at h
      rw [abs_of_neg hneg] at hlog
      have h3 : |-(2 : ℚ) ^ (float32Exponent x + 23) - x| = -x - 2 ^ (float32Exponent x + 23) := by
        rw [abs_of_nonneg (by linarith)]; ring
      rw [h3] at h
      have h4 := neg_abs_le ((m : ℚ) * 2 ^ e)
      have h5 := le_abs_self ((m : ℚ) * 2 ^ e - x)
      linarith
    · have h := float32_sub_le_grid x (2 ^ 23 : ℤ)
      rw [← hsplit] at h
      rw [abs_of_pos hpos] at hlog
      have h3 : |(2 : ℚ) ^ (float32Exponent x + 23) - x| = x - 2 ^ (float32Exponent x + 23) := by
        rw [abs_of_nonpos (by linarith)]; ring
      rw [h3] at h
      have h4 := le_abs_self ((m : ℚ) * 2 ^ e)
      have h5 := neg_abs_le ((m : ℚ) * 2 ^ e - x)
      linarith


theorem IsFloat32.abs_lt {y : ℚ} (hy : IsFloat32 y) : |y| < 2 ^ 128 := by
  obtain ⟨m, e, hm, _, he2, rfl⟩ := hy
  rw [abs_mul, abs_of_pos (by positivity : (0 : ℚ) < 2 ^ e)]
  have hm' : |(m : ℚ)| < 2 ^ (24 : ℤ) := by
    have h : ((|m| : ℤ) : ℚ) < ((2 ^ 24 : ℤ) : ℚ) := by exact_mod_cast hm
    rw [Int.cast_abs] at h
    norm_num at h ⊢
    exact h
  calc |(m : ℚ)| * 2 ^ e < 2 ^ (24 : ℤ) * 2 ^ e :=
        mul_lt_mul_of_pos_right hm' (by positivity)
    _ = 2 ^ (24 + e) := by rw [zpow_add₀ (by norm_num : (2 : ℚ) ≠ 0)]
    _ ≤ 2 ^ (128 : ℤ) := zpow_le_zpow_right₀ (by norm_num) (by omega)
    _ = 2 ^ 128 := by norm_num

theorem float32_isFloat32 (x : ℚ) (hx : |x| < 2 ^ (127 : ℤ)) : IsFloat32 (float32 x) := by
  have he1 : -149 ≤ float32Exponent x := le_max_right _ _
  have hlog : Int.log 2 |x| < 127 := by
    by_cases h0 : x = 0
    · subst h0; simp
    · exact (Int.lt_zpow_iff_log_lt (by norm_num) (abs_pos.2 h0)).1 (by exact_mod_cast hx)
  have he2 : float32Exponent x ≤ 103 := by
    unfold float32Exponent
    exact max_le (by omega) (by norm_num)
  have he3 : Int.log 2 |x| - 23 ≤ float32Exponent x := le_max_left _ _
  have hpos : (0 : ℚ) < 2 ^ float32Exponent x := by positivity
  have hq : |x / 2 ^ float32Exponent x| < 2 ^ (24 : ℤ) := by
    rw [abs_div, abs_of_pos hpos, div_lt_iff₀ hpos,
      ← zpow_add₀ (by norm_num : (2 : ℚ) ≠ 0)]
    have h1 : |x| < (2 : ℚ) ^ (Int.log 2 |x| + 1) := by
      exact_mod_cast Int.lt_zpow_succ_log_self (b := 2) (by norm_num) |x|
    exact lt_of_lt_of_le h1 (zpow_le_zpow_right₀ (by norm_num) (by omega))
  have hr := roundHalfEven_sub_le (x / 2 ^ float32Exponent x)
  have hm : |roundHalfEven (x / 2 ^ float32Exponent x)| ≤ 2 ^ 24 := by
    have h1 : |(roundHalfEven (x / 2 ^ float32Exponent x) : ℚ)| < 2 ^ 24 + 1 := by
      have h2 := abs_sub_abs_le_abs_sub
        (roundHalfEven (x / 2 ^ float32Exponent x) : ℚ) (x / 2 ^ float32Exponent x)
      norm_num at hq ⊢
      linarith
    have h3 : |roundHalfEven (x / 2 ^ float32Exponent x)| < 2 ^ 24 + 1 := by
      have : ((|roundHalfEven (x / 2 ^ float32Exponent x)| : ℤ) : ℚ) < ((2 ^ 24 + 1 : ℤ) : ℚ) := by
        rw [Int.cast_abs]; norm_num at h1 ⊢; exact h1
      exact_mod_cast this
    omega
  by_cases hlt : |roundHalfEven (x / 2 ^ float32Exponent x)| < 2 ^ 24
  · exact ⟨_, _, hlt, he1, by omega, rfl⟩
  · have habs : |roundHalfEven (x / 2 ^ float32Exponent x)| = 2 ^ 24 :=
      le_antisymm hm (not_lt.1 hlt)
    rcases (abs_eq (by norm_num)).1 habs with h | h
    · refine ⟨2 ^ 23, float32Exponent x + 1, by norm_num, by omega, by omega, ?_⟩
      unfold float32
      rw [h, zpow_add_one₀ (by norm_num : (2 : ℚ) ≠ 0)]
      push_cast
      ring
    · refine ⟨-2 ^ 23, float32Exponent x + 1, by norm_num, by omega, by omega, ?_⟩
      unfold float32
      rw [h, zpow_add_one₀ (by norm_num : (2 : ℚ) ≠ 0)]
      push_cast
      ring

/-! Holdings cache: the refresh -/

theorem GetAddressDataStep_foldl (l : List String) (s : State) :
    l.foldl GetAddressDataStep s =
      { s with
        ActiveTokenList := s.ActiveTokenList ++ l
        addressBalance := s.addressBalance +
          (l.map (fun k => GetPrice s k * GetTokenBalance s k)).sum } := by
  induction l generalizing s with
  | nil => simp
  | cons x l ih =>
    rw [List.foldl_cons, ih]
    simp [GetAddressDataStep, GetPrice, GetTokenBalance, add_assoc]

/-- A refresh with an address of valid length, in a world where the explorer
request and the native-asset fetch succeed, returns the state described. -/
theorem GetAddressData_ok (w : AddressWorld) (addx : String) (s : State) (b : Int)
    (hlo : 20 ≤ addx.utf8ByteSize) (hhi : addx.utf8ByteSize ≤ 42)
    (hreq : w.newRequestErr = false) (hdo : w.doErr = false)
    (hd : w.dialErr = false) (hb : w.balanceAt = some b) :
    GetAddressData w addx s = .returned
      { s with
        tokenList := w.unmarshal s.tokenList
        activeCoins := rebuiltCoins (w.unmarshal s.tokenList).Tokens addx (w.balanceFloat b)
        ActiveTokenList :=
          (w.sumOrder (rebuiltCoins (w.unmarshal s.tokenList).Tokens addx (w.balanceFloat b))).1
        addressBalance :=
          ((w.sumOrder (rebuiltCoins (w.unmarshal s.tokenList).Tokens addx
              (w.balanceFloat b))).1.map
            (fun k => (s.coinPrices.get k).Price *
              float32 (((rebuiltCoins (w.unmarshal s.tokenList).Tokens addx
                (w.balanceFloat b)).get k).Balance / float32 (Pow10 18)))).sum } := by
  have hlen : ¬ (addx.utf8ByteSize < 20 ∨ addx.utf8ByteSize > 42) := by omega
  unfold GetAddressData
  rw [if_neg hlen]
  simp only [hreq, hdo, Bool.false_eq_true, if_false]
  rw [updateTokenBalanceMap_rebuilt w addx _ b hd hb]
  simp only [GetAddressDataStep_foldl, List.nil_append, zero_add, GetPrice, GetTokenBalance]

/-- A refresh with an address of valid length, in a world where the explorer
request succeeds and the native-asset fetch fails, ends the process. -/
theorem GetAddressData_fail (w : AddressWorld) (addx : String) (s : State)
    (hlo : 20 ≤ addx.utf8ByteSize) (hhi : addx.utf8ByteSize ≤ 42)
    (hreq : w.newRequestErr = false) (hdo : w.doErr = false)
    (hfail : w.dialErr = true ∨ w.balanceAt = none) :
    GetAddressData w addx s = .exited 1
      { s with
        tokenList := w.unmarshal s.tokenList
        activeCoins := ∅
        ActiveTokenList := [] } := by
  have hlen : ¬ (addx.utf8ByteSize < 20 ∨ addx.utf8ByteSize > 42) := by omega
  unfold GetAddressData
  rw [if_neg hlen]
  simp only [hreq, hdo, Bool.false_eq_true, if_false]
  rw [updateTokenBalanceMap_fail w addx _ hfail]

/-- C4: after a refresh with an address of valid length that returns, the
aggregate balance is the sum, over the keys of the holdings cache, each taken
once, of `GetPrice` times `GetTokenBalance`; the price cache is the one the
refresh started with. -/
theorem C4_address_balance_is_sum (w : AddressWorld) (addx : String) (s : State) (b : Int)
    (hlo : 20 ≤ addx.utf8ByteSize) (hhi : addx.utf8ByteSize ≤ 42)
    (hreq : w.newRequestErr = false) (hdo : w.doErr = false)
    (hd : w.dialErr = false) (hb : w.balanceAt = some b) :
    ∃ s' : State, GetAddressData w addx s = .returned s' ∧
      s'.coinPrices = s.coinPrices ∧
      GetAddressBalance s' =
        ∑ k in s'.activeCoins.keys.toFinset, GetPrice s' k * GetTokenBalance s' k := by
  refine ⟨_, GetAddressData_ok w addx s b hlo hhi hreq hdo hd hb, rfl, ?_⟩
  simp only [GetAddressBalance, GetPrice, GetTokenBalance]
  rw [List.sum_toFinset _ (AList.keys_nodup _)]
  exact ((w.sumOrder _).2.map _).sum_eq

/-- C4 at a refresh from `heldState`, whose price cache holds A and B. -/
theorem C4_address_balance_is_sum_witness :
    20 ≤ sampleAddress.utf8ByteSize ∧ sampleAddress.utf8ByteSize ≤ 42 ∧
    ∃ s' : State,
      GetAddressData (goodWorld [sampleToken "X" "w" 2 7] 3) sampleAddress heldState
        = .returned s' ∧
      s'.coinPrices = heldState.coinPrices ∧
      GetAddressBalance s' =
        ∑ k in s'.activeCoins.keys.toFinset, GetPrice s' k * GetTokenBalance s' k :=
  ⟨by decide, by decide,
   C4_address_balance_is_sum (goodWorld [sampleToken "X" "w" 2 7] 3) sampleAddress heldState 3
     (by decide) (by decide) rfl rfl rfl rfl⟩

/-- C5: a refresh with an address shorter than 20 bytes or longer than 42
returns at once and leaves the whole package state as it was, so that the
holdings cache, the symbol list and the aggregate balance are unchanged. -/
theorem C5_invalid_length_changes_nothing (w : AddressWorld) (addx : String) (s : State)
    (hlen : addx.utf8ByteSize < 20 ∨ addx.utf8ByteSize > 42) :
    GetAddressData w addx s = .returned s ∧
    (GetAddressData w addx s).state.activeCoins = s.activeCoins ∧
    (GetAddressData w addx s).state.ActiveTokenList = s.ActiveTokenList ∧
    (GetAddressData w addx s).state.addressBalance = s.addressBalance := by
  have h : GetAddressData w addx s = .returned s := by
    unfold GetAddressData
    rw [if_pos hlen]
  rw [h]
  exact ⟨rfl, rfl, rfl, rfl⟩

/-- C5 at an address of 5 bytes and a state that has holdings. -/
theorem C5_invalid_length_changes_nothing_witness :
    (shortAddress.utf8ByteSize < 20 ∨ shortAddress.utf8ByteSize > 42) ∧
    GetAddressData (goodWorld [sampleToken "Z" "w" 2 7] 3) shortAddress heldState
      = .returned heldState ∧
    (GetAddressData (goodWorld [sampleToken "Z" "w" 2 7] 3) shortAddress heldState).state.activeCoins
      = heldState.activeCoins ∧
    (GetAddressData (goodWorld [sampleToken "Z" "w" 2 7] 3) shortAddress
      heldState).state.ActiveTokenList = heldState.ActiveTokenList ∧
    (GetAddressData (goodWorld [sampleToken "Z" "w" 2 7] 3) shortAddress
      heldState).state.addressBalance = heldState.addressBalance :=
  ⟨by decide,
   C5_invalid_length_changes_nothing (goodWorld [sampleToken "Z" "w" 2 7] 3) shortAddress
     heldState (by decide)⟩

/-- C6, refuted at `failOutcome`: the prior state `heldState` has holdings, the
address has a valid length, the explorer answers and the node cannot be
dialled.  The call does not return with the three components unchanged: the
process ends with status 1, and by then the holdings cache and the symbol list
differ from what they were. -/
theorem C6_counterexample :
    (20 ≤ sampleAddress.utf8ByteSize ∧ sampleAddress.utf8ByteSize ≤ 42) ∧
    (dialFailWorld [sampleToken "X" "w" 999999984306749440 7]).dialErr = true ∧
    ¬ (∃ s' : State, failOutcome = .returned s' ∧
        s'.activeCoins = heldState.activeCoins ∧
        s'.ActiveTokenList = heldState.ActiveTokenList ∧
        s'.addressBalance = heldState.addressBalance) ∧
    failOutcome.isReturned = false ∧
    failOutcome.state.activeCoins ≠ heldState.activeCoins ∧
    failOutcome.state.ActiveTokenList ≠ heldState.ActiveTokenList := by
  refine ⟨by decide, rfl, ?_, by decide, ?_, by decide⟩
  · rintro ⟨s', h, _⟩
    have h2 : failOutcome.isReturned = true := by rw [h]; rfl
    revert h2
    decide
  · intro h
    have h2 := congrArg AList.keys h
    revert h2
    decide

/-- C6 as amended: with an address of valid length, when the explorer request
succeeds and the native-asset fetch fails, the refresh does not return: the
process ends with exit status 1, and at that moment the holdings cache is
empty, the symbol list is empty and the aggregate balance is as it was. -/
theorem C6_native_fetch_failure_exits (w : AddressWorld) (addx : String) (s : State)
    (hlo : 20 ≤ addx.utf8ByteSize) (hhi : addx.utf8ByteSize ≤ 42)
    (hreq : w.newRequestErr = false) (hdo : w.doErr = false)
    (hfail : w.dialErr = true ∨ w.balanceAt = none) :
    ∃ s' : State, GetAddressData w addx s = .exited 1 s' ∧
      s'.activeCoins = ∅ ∧ s'.ActiveTokenList = [] ∧ s'.addressBalance = s.addressBalance :=
  ⟨_, GetAddressData_fail w addx s hlo hhi hreq hdo hfail, rfl, rfl, rfl⟩

/-- C6 as amended, at `failOutcome`. -/
theorem C6_native_fetch_failure_exits_witness :
    (20 ≤ sampleAddress.utf8ByteSize ∧ sampleAddress.utf8ByteSize ≤ 42) ∧
    ∃ s' : State, failOutcome = .exited 1 s' ∧
      s'.activeCoins = ∅ ∧ s'.ActiveTokenList = [] ∧
      s'.addressBalance = heldState.addressBalance :=
  ⟨by decide,
   C6_native_fetch_failure_exits (dialFailWorld [sampleToken "X" "w" 999999984306749440 7])
     sampleAddress heldState (by decide) (by decide) rfl rfl (Or.inl rfl)⟩

/-! Holdings cache: the getters -/

theorem GoMap.get_of_not_mem {V : Type} [Inhabited V] (m : GoMap V) (k : String)
    (h : k ∉ m) : m.get k = default := by
  unfold GoMap.get
  rw [AList.lookup_eq_none.2 h]
  rfl

/-- C7, refuted at the start state and the symbol ABC: the symbol is not a key
of the holdings cache, and `GetTokenImageUrl` gives the origin of the explorer,
not the empty string. -/
theorem C7_counterexample :
    ¬ ("ABC" ∉ State.init.activeCoins →
        GetTokenName State.init "ABC" = "" ∧ GetTokenUrl State.init "ABC" = "" ∧
        GetTokenChange State.init "ABC" = 0 ∧ GetTokenImageUrl State.init "ABC" = "") := by
  intro h
  have h4 := (h (AList.not_mem_empty _)).2.2.2
  revert h4
  decide

/-- C7 as amended: for a symbol that is not a key of the holdings cache,
`GetTokenName` and `GetTokenUrl` give the empty string and `GetTokenChange`
gives 0; `GetTokenImageUrl` gives the empty string for ETH and the origin
`https://ethplorer.io` for every other symbol. -/
theorem C7_unknown_symbol_lookups (s : State) (sym : String) (h : sym ∉ s.activeCoins) :
    GetTokenName s sym = "" ∧ GetTokenUrl s sym = "" ∧ GetTokenChange s sym = 0 ∧
    GetTokenImageUrl s sym = (if sym = "ETH" then "" else "https://ethplorer.io") := by
  have hget := GoMap.get_of_not_mem s.activeCoins sym h
  refine ⟨?_, ?_, ?_, ?_⟩
  · simp only [GetTokenName, hget]; rfl
  · simp only [GetTokenUrl, hget]; rfl
  · simp only [GetTokenChange, hget]; rfl
  · simp only [GetTokenImageUrl, hget]
    by_cases hs : sym = "ETH"
    · rw [if_pos hs, if_pos hs]; rfl
    · rw [if_neg hs, if_neg hs]; rfl

/-- C7 as amended, at `heldState` and the symbol Y, which the explorer listed
without a website. -/
theorem C7_unknown_symbol_lookups_witness :
    "Y" ∉ heldState.activeCoins ∧
    (GetTokenName heldState "Y" = "" ∧ GetTokenUrl heldState "Y" = "" ∧
      GetTokenChange heldState "Y" = 0 ∧
      GetTokenImageUrl heldState "Y" = (if "Y" = "ETH" then "" else "https://ethplorer.io")) :=
  ⟨by decide, C7_unknown_symbol_lookups heldState "Y" (by decide)⟩

/-- After a refresh that returns, `GetTokenChange` is 0 for every symbol: no
record of the holdings cache carries a price. -/
theorem GetTokenChange_after_refresh (w : AddressWorld) (addx : String) (s : State) (b : Int)
    (hlo : 20 ≤ addx.utf8ByteSize) (hhi : addx.utf8ByteSize ≤ 42)
    (hreq : w.newRequestErr = false) (hdo : w.doErr = false)
    (hd : w.dialErr = false) (hb : w.balanceAt = some b) (sym : String) :
    GetTokenChange (GetAddressData w addx s).state sym = 0 := by
  rw [GetAddressData_ok w addx s b hlo hhi hreq hdo hd hb]
  simp only [Outcome.state, GetTokenChange, GoMap.get]
  cases hl : (rebuiltCoins (w.unmarshal s.tokenList).Tokens addx (w.balanceFloat b)).lookup sym with
  | none => rfl
  | some r =>
    rcases rebuiltCoins_lookup _ _ _ _ _ hl with ⟨_, hr⟩ | ⟨t, _, _, _, hr⟩
    · rw [hr]; rfl
    · rw [hr]; rfl

/-- C8, the code at `heldOutcome`: the explorer lists the token X with a website
and the price difference 7; the refresh returns with X in the holdings cache,
and `GetTokenChange "X"` is 0, not 7. -/
theorem C8_GetTokenChange_is_zero :
    heldOutcome.isReturned = true ∧
    (sampleToken "X" "w" 999999984306749440 7) ∈ heldState.tokenList.Tokens ∧
    (sampleToken "X" "w" 999999984306749440 7).TokenInfo.Price.Diff = 7 ∧
    "X" ∈ heldState.activeCoins ∧
    GetTokenChange heldState "X" = 0 := by
  decide

theorem GetTokenBalance_eq (s : State) (sym : String) :
    GetTokenBalance s sym = float32 ((s.activeCoins.get sym).Balance / 999999984306749440) := by
  unfold GetTokenBalance Pow10
  rw [float32_pow10]

/-- C9, refuted at `twoState`: the token X is stored with the balance 2, which
is a `float32`, and `GetTokenBalance "X"` is 9671407/2^82, the `float32`
nearest to 2/999999984306749440, not 2 divided by 10^18. -/
theorem C9_counterexample :
    twoState.activeCoins.lookup "X" = some (tokenInfoOf (sampleToken "X" "w" 2 7) default) ∧
    (tokenInfoOf (sampleToken "X" "w" 2 7) default).Balance = 2 ∧
    GetTokenBalance twoState "X" = 9671407 / 2 ^ 82 ∧
    ¬ (GetTokenBalance twoState "X" =
        (match twoState.activeCoins.lookup "X" with
          | some r => r.Balance
          | none => 0) / 10 ^ 18) := by
  have hl : twoState.activeCoins.lookup "X"
      = some (tokenInfoOf (sampleToken "X" "w" 2 7) default) := by decide
  have hv : GetTokenBalance twoState "X" = 9671407 / 2 ^ 82 := by
    rw [GetTokenBalance_eq, GoMap.get, hl]
    exact float32_two_div
  refine ⟨hl, rfl, hv, ?_⟩
  rw [hv, hl]
  show ¬ ((9671407 : ℚ) / 2 ^ 82 = 2 / 10 ^ 18)
  norm_num

/-- C9 as amended: `GetTokenBalance` is the `float32` quotient of the balance
stored for the symbol, 0 when the symbol is absent, by `float32(10^18)`, which
is 999999984306749440.  It is 0 for an absent symbol; a stored balance of
`float32(1×10^18)` gives exactly 1; and for every stored `float32` balance the
result is a `float32` and no `float32` is nearer to the exact quotient. -/
theorem C9_GetTokenBalance_rounds (s : State) (sym : String) :
    float32 (Pow10 18) = 999999984306749440 ∧
    GetTokenBalance s sym =
      float32 ((match s.activeCoins.lookup sym with
        | some r => r.Balance
        | none => 0) / 999999984306749440) ∧
    (sym ∉ s.activeCoins → GetTokenBalance s sym = 0) ∧
    (∀ r : tokenInfo, s.activeCoins.lookup sym = some r → r.Balance = float32 (1 * 10 ^ 18) →
      GetTokenBalance s sym = 1) ∧
    (∀ r : tokenInfo, s.activeCoins.lookup sym = some r → IsFloat32 r.Balance →
      IsFloat32 (GetTokenBalance s sym) ∧
      ∀ y : ℚ, IsFloat32 y →
        |GetTokenBalance s sym - r.Balance / 999999984306749440|
          ≤ |y - r.Balance / 999999984306749440|) := by
  refine ⟨float32_pow10, ?_, ?_, ?_, ?_⟩
  · rw [GetTokenBalance_eq, GoMap.get]
    cases s.activeCoins.lookup sym <;> rfl
  · intro h
    rw [GetTokenBalance_eq, GoMap.get_of_not_mem _ _ h]
    show float32 ((0 : ℚ) / 999999984306749440) = 0
    rw [zero_div, float32_zero]
  · intro r hr hbal
    rw [GetTokenBalance_eq, GoMap.get, hr, Option.getD_some, hbal, one_mul, float32_pow10,
      div_self (by norm_num)]
    exact float32_one
  · intro r hr hf
    rw [GetTokenBalance_eq, GoMap.get, hr, Option.getD_some]
    refine ⟨float32_isFloat32 _ ?_, fun y hy => float32_nearest _ y hy⟩
    have h1 := hf.abs_lt
    rw [abs_div, abs_of_pos (by norm_num : (0 : ℚ) < 999999984306749440),
      div_lt_iff₀ (by norm_num)]
    calc |r.Balance| < 2 ^ 128 := h1
      _ ≤ 2 ^ (127 : ℤ) * 999999984306749440 := by norm_num

/-- C9 as amended, at `heldState`: the token X is stored with the balance
`float32(1×10^18)`, which is 14551915 × 2^36, and `GetTokenBalance "X"` is 1,
a `float32` that no other `float32` beats in distance to the exact quotient. -/
theorem C9_GetTokenBalance_rounds_witness :
    heldState.activeCoins.lookup "X"
      = some (tokenInfoOf (sampleToken "X" "w" 999999984306749440 7) default) ∧
    (tokenInfoOf (sampleToken "X" "w" 999999984306749440 7) default).Balance
      = float32 (1 * 10 ^ 18) ∧
    IsFloat32 (tokenInfoOf (sampleToken "X" "w" 999999984306749440 7) default).Balance ∧
    GetTokenBalance heldState "X" = 1 ∧
    (IsFloat32 (GetTokenBalance heldState "X") ∧
      ∀ y : ℚ, IsFloat32 y →
        |GetTokenBalance heldState "X" -
            (tokenInfoOf (sampleToken "X" "w" 999999984306749440 7) default).Balance
              / 999999984306749440|
          ≤ |y - (tokenInfoOf (sampleToken "X" "w" 999999984306749440 7) default).Balance
              / 999999984306749440|) :=
  ⟨by decide, by rw [one_mul, float32_pow10]; rfl,
   ⟨14551915, 36, by norm_num, by norm_num, by norm_num, by norm_num [tokenInfoOf, sampleToken]⟩,
   (C9_GetTokenBalance_rounds heldState "X").2.2.2.1
     (tokenInfoOf (sampleToken "X" "w" 999999984306749440 7) default) (by decide)
     (by rw [one_mul, float32_pow10]; rfl),
   (C9_GetTokenBalance_rounds heldState "X").2.2.2.2
     (tokenInfoOf (sampleToken "X" "w" 999999984306749440 7) default) (by decide)
     ⟨14551915, 36, by norm_num, by norm_num, by norm_num,
       by norm_num [tokenInfoOf, sampleToken]⟩⟩

/-- C10: after a refresh with an address of valid length that returns, whatever
the symbol list was before, `GetTokenList` is an enumeration of the keys of the
holdings cache without repetition: it has no duplicate, a symbol is in it
exactly when it is a key, and ETH is a key and in the list. -/
theorem C10_token_list_enumerates_keys (w : AddressWorld) (addx : String) (s : State) (b : Int)
    (hlo : 20 ≤ addx.utf8ByteSize) (hhi : addx.utf8ByteSize ≤ 42)
    (hreq : w.newRequestErr = false) (hdo : w.doErr = false)
    (hd : w.dialErr = false) (hb : w.balanceAt = some b) :
    ∃ s' : State, GetAddressData w addx s = .returned s' ∧
      (GetTokenList s').Nodup ∧
      (∀ k : String, k ∈ GetTokenList s' ↔ k ∈ s'.activeCoins) ∧
      (∀ k : String, (GetTokenList s').count k = if k ∈ s'.activeCoins then 1 else 0) ∧
      "ETH" ∈ s'.activeCoins ∧ "ETH" ∈ GetTokenList s' := by
  refine ⟨_, GetAddressData_ok w addx s b hlo hhi hreq hdo hd hb, ?_, ?_, ?_, ?_, ?_⟩
  · exact (w.sumOrder _).2.nodup_iff.2 (AList.keys_nodup _)
  · intro k
    exact (w.sumOrder _).2.mem_iff.trans AList.mem_keys.symm
  · intro k
    show List.count k (w.sumOrder _).1 = _
    rw [(w.sumOrder _).2.count_eq k]
    by_cases hk : k ∈ rebuiltCoins (w.unmarshal s.tokenList).Tokens addx (w.balanceFloat b)
    · rw [if_pos hk]
      exact List.count_eq_one_of_mem (AList.keys_nodup _) (AList.mem_keys.1 hk)
    · rw [if_neg hk]
      exact List.count_eq_zero_of_not_mem (fun h => hk (AList.mem_keys.2 h))
  · exact (rebuiltCoins_mem_iff _ _ _ _).2 (Or.inl rfl)
  · exact (w.sumOrder _).2.mem_iff.2
      (AList.mem_keys.1 ((rebuiltCoins_mem_iff _ _ _ _).2 (Or.inl rfl)))

/-- C10 at a refresh from `heldState`, whose symbol list is not empty. -/
theorem C10_token_list_enumerates_keys_witness :
    (20 ≤ sampleAddress.utf8ByteSize ∧ sampleAddress.utf8ByteSize ≤ 42) ∧
    heldState.ActiveTokenList ≠ [] ∧
    ∃ s' : State,
      GetAddressData (goodWorld [sampleToken "Z" "w" 2 7] 3) sampleAddress heldState
        = .returned s' ∧
      (GetTokenList s').Nodup ∧
      (∀ k : String, k ∈ GetTokenList s' ↔ k ∈ s'.activeCoins) ∧
      (∀ k : String, (GetTokenList s').count k = if k ∈ s'.activeCoins then 1 else 0) ∧
      "ETH" ∈ s'.activeCoins ∧ "ETH" ∈ GetTokenList s' :=
  ⟨by decide, by decide,
   C10_token_list_enumerates_keys (goodWorld [sampleToken "Z" "w" 2 7] 3) sampleAddress
     heldState 3 (by decide) (by decide) rfl rfl rfl rfl⟩

end GoinsAPI
